import Mathlib

/-!
RunTimeClassInfo: record layout of the CDS run-time class information.

A shallow embedding of `src/hotspot/share/cds/runTimeClassInfo.hpp`.

* C++ `int` values are `Int`s; the range of the machine type is the predicate
  `is_int32`.  `size_t` values are `Nat`s and every `size_t` operation is
  reduced modulo `2 ^ 64` (LP64).
* An `InstanceKlass*` is an address (`Nat`); what the header file asks of the
  object behind it (`is_hidden()`, `is_shared()`, ...) is looked up in the
  `klass_at` table of the `Heap`.
* A `RunTimeClassInfo*` is an address `this` into the byte memory of the
  `Heap`; the header fields and the trailing optional sections are read from
  and written to that memory at the offsets the C++ code computes.
* `assert` is modelled as in a debug build: a failed assertion makes the
  accessor return `none`.
* The back-pointer slot is the 8-byte word below a class address;
  `ArchiveBuilder::current()` and the marked pointer locations are passed to
  `set_for` explicitly, and the build-time macro `INCLUDE_CDS` is a parameter of
  `EQUALS`.
* `OffsetCompactHashtable` is not part of the sources at hand; the dictionary
  is modelled from the specification (`bulk_load`, `lookup`).
-/

namespace RunTimeClassInfo

/-! ## Machine model -/

/-- Number of values of the LP64 `size_t`; `size_t` arithmetic wraps at it. -/
def SIZE_T_MOD : Nat := 2 ^ 64

/-- Range of the C++ `int` (32 bit, two's complement). -/
def is_int32 (n : Int) : Prop := -2147483648 ≤ n ∧ n ≤ 2147483647

instance (n : Int) : Decidable (is_int32 n) := by
  unfold is_int32; infer_instance

/-- Integral conversion of an `int` to `size_t`, as done when an `int` is
multiplied with a `sizeof`. -/
def to_size_t (n : Int) : Nat := (n % (SIZE_T_MOD : Int)).toNat

/-- Integral conversion to `int` (value modulo `2 ^ 32`, read as signed). -/
def to_int (x : Int) : Int :=
  if x % 4294967296 < 2147483648 then x % 4294967296 else x % 4294967296 - 4294967296

/-- Modelled from the spec: `wordSize` (utilities/globalDefinitions.hpp is not
under src/), the machine word size in bytes, here of an LP64 platform. -/
def wordSize : Nat := 8

/-- Modelled from the spec: `align_up` (utilities/align.hpp is not under src/),
"all sizes round up to machine word granularity": the least multiple of
`alignment` that is not below `size`, computed in `size_t`. -/
def align_up (size alignment : Nat) : Nat :=
  ((size + (alignment - 1)) % SIZE_T_MOD) / alignment * alignment

/-! ### `sizeof` of the structures declared in the header (LP64 ABI) -/

/-- The four header fields `u4 _klass_offset; u4 _nest_host_offset;
int _num_verifier_constraints; int _num_loader_constraints;`. -/
def sizeof_RunTimeClassInfo : Nat := 16
/-- The struct `CrcInfo { int _clsfile_size; int _clsfile_crc32; }`. -/
def sizeof_CrcInfo : Nat := 8
/-- The struct `RTVerifierConstraint { u4 _name; u4 _from_name; }`. -/
def sizeof_RTVerifierConstraint : Nat := 8
/-- The struct `RTLoaderConstraint { u4 _name; char _loader_type1;
char _loader_type2; }`, padded to its 4-byte alignment. -/
def sizeof_RTLoaderConstraint : Nat := 8
/-- The struct `RTEnumKlassStaticFields { int _num; int _root_indices[1]; }`. -/
def sizeof_RTEnumKlassStaticFields : Nat := 8
/-- The C++ `sizeof(int)`. -/
def sizeof_int : Nat := 4
/-- The C++ `sizeof(char)`. -/
def sizeof_char : Nat := 1
/-- The C++ `sizeof(InstanceKlass*)`. -/
def sizeof_InstanceKlass_ptr : Nat := 8

/-! ## Heap -/

/-- What this header file observes of an `InstanceKlass` object (the class
itself is declared in oops/instanceKlass.hpp, not under src/). -/
structure InstanceKlass where
  /-- Result of `is_hidden()`. -/
  is_hidden : Bool
  /-- Result of `is_shared()`. -/
  is_shared : Bool
  /-- Result of `has_archived_enum_objs()`. -/
  has_archived_enum_objs : Bool
  /-- The class is UNREGISTERED (not loaded by a built-in loader). -/
  is_unregistered : Bool
  /-- Result of `name()`: the address of the interned `Symbol`. -/
  name : Nat

/-- The address space: byte memory, the `InstanceKlass` objects living in it,
and the base address against which archived offsets are resolved. -/
structure Heap where
  /-- The byte stored at each address (read modulo 256). -/
  mem : Nat → Nat
  /-- The `InstanceKlass` object found at an address. -/
  klass_at : Nat → InstanceKlass
  /-- Base of the mapped archive. -/
  SharedBaseAddress : Nat

/-- Load of one byte (`char`, as its bit pattern). -/
def load_u1 (m : Nat → Nat) (a : Nat) : Nat := m a % 256

/-- Little-endian load of a `u4`. -/
def load_u4 (m : Nat → Nat) (a : Nat) : Nat :=
  load_u1 m a + 256 * load_u1 m (a + 1) + 65536 * load_u1 m (a + 2)
    + 16777216 * load_u1 m (a + 3)

/-- Load of an `int`: the `u4` at the address read as two's complement. -/
def load_int (m : Nat → Nat) (a : Nat) : Int :=
  if load_u4 m a < 2147483648 then (load_u4 m a : Int) else (load_u4 m a : Int) - 4294967296

/-- Store of one byte. -/
def store_u1 (m : Nat → Nat) (a : Nat) (v : Nat) : Nat → Nat :=
  fun x => if x = a then v % 256 else m x

/-- Little-endian store of a `u4`. -/
def store_u4 (m : Nat → Nat) (a : Nat) (v : Nat) : Nat → Nat :=
  store_u1 (store_u1 (store_u1 (store_u1 m a v) (a + 1) (v / 256)) (a + 2) (v / 65536))
    (a + 3) (v / 16777216)

/-- Store of an `int`: its two's complement bit pattern, little-endian. -/
def store_int (m : Nat → Nat) (a : Nat) (v : Int) : Nat → Nat :=
  store_u4 m a (v % 4294967296).toNat

/-! ## Section sizes (lines 89-114) -/

/-- Source: `header_size_size()`. -/
def header_size_size : Nat :=
  align_up sizeof_RunTimeClassInfo wordSize

/-- Source: `verifier_constraints_size(int)`. -/
def verifier_constraints_size (num_verifier_constraints : Int) : Nat :=
  align_up ((sizeof_RTVerifierConstraint * to_size_t num_verifier_constraints) % SIZE_T_MOD)
    wordSize

/-- Source: `verifier_constraint_flags_size(int)`. -/
def verifier_constraint_flags_size (num_verifier_constraints : Int) : Nat :=
  align_up ((sizeof_char * to_size_t num_verifier_constraints) % SIZE_T_MOD) wordSize

/-- Source: `loader_constraints_size(int)`. -/
def loader_constraints_size (num_loader_constraints : Int) : Nat :=
  align_up ((sizeof_RTLoaderConstraint * to_size_t num_loader_constraints) % SIZE_T_MOD)
    wordSize

/-- Source: `enum_klass_static_fields_size(int)`. -/
def enum_klass_static_fields_size (num_fields : Int) : Nat :=
  let size : Nat :=
    if num_fields ≤ 0 then 0
    else (sizeof_RTEnumKlassStaticFields
            + (to_size_t (num_fields - 1) * sizeof_int) % SIZE_T_MOD) % SIZE_T_MOD
  align_up size wordSize

/-- Source: `nest_host_size(InstanceKlass*)`. -/
def nest_host_size (h : Heap) (klass : Nat) : Nat :=
  if (h.klass_at klass).is_hidden then sizeof_InstanceKlass_ptr else 0

/-- Modelled from the spec: `crc_size(InstanceKlass*)` is only declared in the
header (its body is in runTimeClassInfo.cpp, not under src/).  "integrity-info
size is nonzero only if the type's source is unregistered"; the header comment
reads `optional CrcInfo _crc; (only for UNREGISTERED classes)`. -/
def crc_size (h : Heap) (klass : Nat) : Nat :=
  if (h.klass_at klass).is_unregistered then sizeof_CrcInfo else 0

/-- Source: `byte_size(klass, num_verifier_constraints, num_loader_constraints,
num_enum_klass_static_fields)`, a left-to-right sum in `size_t`. -/
def byte_size (h : Heap) (klass : Nat) (num_verifier_constraints num_loader_constraints
    num_enum_klass_static_fields : Int) : Nat :=
  ((((((header_size_size
    + crc_size h klass) % SIZE_T_MOD
    + nest_host_size h klass) % SIZE_T_MOD
    + loader_constraints_size num_loader_constraints) % SIZE_T_MOD
    + verifier_constraints_size num_verifier_constraints) % SIZE_T_MOD
    + verifier_constraint_flags_size num_verifier_constraints) % SIZE_T_MOD
    + enum_klass_static_fields_size num_enum_klass_static_fields) % SIZE_T_MOD

/-! ## The record (lines 77-80, 116-118) -/

/-- Source: field `u4 _klass_offset` (offset 0 of the record). -/
def _klass_offset (h : Heap) (this : Nat) : Nat := load_u4 h.mem this

/-- Source: field `u4 _nest_host_offset` (offset 4 of the record). -/
def _nest_host_offset (h : Heap) (this : Nat) : Nat := load_u4 h.mem (this + 4)

/-- Source: field `int _num_verifier_constraints` (offset 8 of the record). -/
def _num_verifier_constraints (h : Heap) (this : Nat) : Int := load_int h.mem (this + 8)

/-- Source: field `int _num_loader_constraints` (offset 12 of the record). -/
def _num_loader_constraints (h : Heap) (this : Nat) : Int := load_int h.mem (this + 12)

/-- Modelled from the spec: `klass()` is only declared in the header (its body
is in runTimeClassInfo.cpp, not under src/).  The header holds an
"offset/reference to the owning type descriptor", and "every access translates
offset to live reference by adding the current base address". -/
def klass (h : Heap) (this : Nat) : Nat := h.SharedBaseAddress + _klass_offset h this

/-- Source: `num_verifier_constraints()`. -/
def num_verifier_constraints (h : Heap) (this : Nat) : Int := _num_verifier_constraints h this

/-- Source: `num_loader_constraints()`. -/
def num_loader_constraints (h : Heap) (this : Nat) : Int := _num_loader_constraints h this

/-! ## Section offsets (lines 131-150) -/

/-- Source: `crc_offset()`. -/
def crc_offset (_h : Heap) (_this : Nat) : Nat :=
  header_size_size

/-- Source: `nest_host_offset()`. -/
def nest_host_offset (h : Heap) (this : Nat) : Nat :=
  (crc_offset h this + crc_size h (klass h this)) % SIZE_T_MOD

/-- Source: `loader_constraints_offset()`. -/
def loader_constraints_offset (h : Heap) (this : Nat) : Nat :=
  (nest_host_offset h this + nest_host_size h (klass h this)) % SIZE_T_MOD

/-- Source: `verifier_constraints_offset()`. -/
def verifier_constraints_offset (h : Heap) (this : Nat) : Nat :=
  (loader_constraints_offset h this
    + loader_constraints_size (_num_loader_constraints h this)) % SIZE_T_MOD

/-- Source: `verifier_constraint_flags_offset()`. -/
def verifier_constraint_flags_offset (h : Heap) (this : Nat) : Nat :=
  (verifier_constraints_offset h this
    + verifier_constraints_size (_num_verifier_constraints h this)) % SIZE_T_MOD

/-- Source: `enum_klass_static_fields_offset()`. -/
def enum_klass_static_fields_offset (h : Heap) (this : Nat) : Nat :=
  (verifier_constraint_flags_offset h this
    + verifier_constraint_flags_size (_num_verifier_constraints h this)) % SIZE_T_MOD

/-! ## Checked accessors (lines 152-238); `none` is a failed `assert` -/

/-- Source: `check_verifier_constraint_offset(int i)`. -/
def check_verifier_constraint_offset (h : Heap) (this : Nat) (i : Int) : Option Unit :=
  if 0 ≤ i ∧ i < _num_verifier_constraints h this then some () else none

/-- Source: `check_loader_constraint_offset(int i)`. -/
def check_loader_constraint_offset (h : Heap) (this : Nat) (i : Int) : Option Unit :=
  if 0 ≤ i ∧ i < _num_loader_constraints h this then some () else none

/-- Source: `enum_klass_static_fields_addr()`. -/
def enum_klass_static_fields_addr (h : Heap) (this : Nat) : Option Nat :=
  if (h.klass_at (klass h this)).has_archived_enum_objs
  then some (this + enum_klass_static_fields_offset h this) else none

/-- Source: `crc()`. -/
def crc (h : Heap) (this : Nat) : Option Nat :=
  if crc_size h (klass h this) > 0 then some (this + crc_offset h this) else none

/-- Source: `verifier_constraints()`. -/
def verifier_constraints (h : Heap) (this : Nat) : Option Nat :=
  if _num_verifier_constraints h this > 0
  then some (this + verifier_constraints_offset h this) else none

/-- Source: `verifier_constraint_at(int i)`; the result is the address of
element `i` of the `RTVerifierConstraint` array. -/
def verifier_constraint_at (h : Heap) (this : Nat) (i : Int) : Option Nat := do
  check_verifier_constraint_offset h this i
  let p ← verifier_constraints h this
  pure (p + sizeof_RTVerifierConstraint * i.toNat)

/-- Source: `verifier_constraint_flags()`. -/
def verifier_constraint_flags (h : Heap) (this : Nat) : Option Nat :=
  if _num_verifier_constraints h this > 0
  then some (this + verifier_constraint_flags_offset h this) else none

/-- Source: `loader_constraints()`. -/
def loader_constraints (h : Heap) (this : Nat) : Option Nat :=
  if _num_loader_constraints h this > 0
  then some (this + loader_constraints_offset h this) else none

/-- Source: `loader_constraint_at(int i)`; the result is the address of
element `i` of the `RTLoaderConstraint` array. -/
def loader_constraint_at (h : Heap) (this : Nat) (i : Int) : Option Nat := do
  check_loader_constraint_offset h this i
  let p ← loader_constraints h this
  pure (p + sizeof_RTLoaderConstraint * i.toNat)

/-- Source: `matches(int clsfile_size, int clsfile_crc32)`; `_clsfile_size` is
at offset 0 and `_clsfile_crc32` at offset 4 of `CrcInfo`, and `&&` evaluates
its second operand only when the first holds. -/
def «matches» (h : Heap) (this : Nat) (clsfile_size clsfile_crc32 : Int) : Option Bool := do
  let c ← crc h this
  if load_int h.mem c = clsfile_size then
    let d ← crc h this
    pure (decide (load_int h.mem (d + 4) = clsfile_crc32))
  else
    pure false

/-- Source: `verifier_constraint_flag(int i)`; the `char` is returned as its
bit pattern. -/
def verifier_constraint_flag (h : Heap) (this : Nat) (i : Int) : Option Nat := do
  check_verifier_constraint_offset h this i
  let p ← verifier_constraint_flags h this
  pure (load_u1 h.mem (p + sizeof_char * i.toNat))

/-- Source: enumerator `FROM_FIELD_IS_PROTECTED = 1 << 0`. -/
def FROM_FIELD_IS_PROTECTED : Nat := 1 <<< 0
/-- Source: enumerator `FROM_IS_ARRAY = 1 << 1`. -/
def FROM_IS_ARRAY : Nat := 1 <<< 1
/-- Source: enumerator `FROM_IS_OBJECT = 1 << 2`. -/
def FROM_IS_OBJECT : Nat := 1 <<< 2

/-- Source: `from_field_is_protected(int i)`.  Integral promotion of the
`char` keeps its low eight bits, so `&` with a one-byte mask acts on the bit
pattern. -/
def from_field_is_protected (h : Heap) (this : Nat) (i : Int) : Option Bool := do
  let f ← verifier_constraint_flag h this i
  pure ((f &&& FROM_FIELD_IS_PROTECTED) != 0)

/-- Source: `from_is_array(int i)`. -/
def from_is_array (h : Heap) (this : Nat) (i : Int) : Option Bool := do
  let f ← verifier_constraint_flag h this i
  pure ((f &&& FROM_IS_ARRAY) != 0)

/-- Source: `from_is_object(int i)`. -/
def from_is_object (h : Heap) (this : Nat) (i : Int) : Option Bool := do
  let f ← verifier_constraint_flag h this i
  pure ((f &&& FROM_IS_OBJECT) != 0)

/-- Source: `num_enum_klass_static_fields(int i)`; the parameter is unused in
the source too.  `_num` is at offset 0 of `RTEnumKlassStaticFields`. -/
def num_enum_klass_static_fields (h : Heap) (this : Nat) (_i : Int) : Option Int := do
  let p ← enum_klass_static_fields_addr h this
  pure (load_int h.mem p)

/-- Source: `set_num_enum_klass_static_fields(int num)`. -/
def set_num_enum_klass_static_fields (h : Heap) (this : Nat) (num : Int) : Option Heap := do
  let p ← enum_klass_static_fields_addr h this
  pure { h with mem := store_int h.mem p num }

/-- Source: `enum_klass_static_field_root_index_at(int i)`; `_root_indices` is
at offset 4 of `RTEnumKlassStaticFields`. -/
def enum_klass_static_field_root_index_at (h : Heap) (this : Nat) (i : Int) : Option Int := do
  if 0 ≤ i then
    let p ← enum_klass_static_fields_addr h this
    if i < load_int h.mem p then
      let q ← enum_klass_static_fields_addr h this
      pure (load_int h.mem (q + sizeof_int + sizeof_int * i.toNat))
    else none
  else none

/-- Source: `set_enum_klass_static_field_root_index_at(int i, int root_index)`. -/
def set_enum_klass_static_field_root_index_at (h : Heap) (this : Nat) (i root_index : Int) :
    Option Heap := do
  if 0 ≤ i then
    let p ← enum_klass_static_fields_addr h this
    if i < load_int h.mem p then
      let q ← enum_klass_static_fields_addr h this
      pure { h with mem := store_int h.mem (q + sizeof_int + sizeof_int * i.toNat) root_index }
    else none
  else none

/-! ## Back-pointer slot (lines 240-262) -/

/-- The C++ `sizeof(RunTimeClassInfo*)`. -/
def sizeof_RunTimeClassInfo_ptr : Nat := 8

/-- Little-endian load of a pointer (one machine word). -/
def load_u8 (m : Nat → Nat) (a : Nat) : Nat :=
  load_u1 m a + 256 * load_u1 m (a + 1) + 65536 * load_u1 m (a + 2)
    + 16777216 * load_u1 m (a + 3) + 4294967296 * load_u1 m (a + 4)
    + 1099511627776 * load_u1 m (a + 5) + 281474976710656 * load_u1 m (a + 6)
    + 72057594037927936 * load_u1 m (a + 7)

/-- Little-endian store of a pointer (one machine word). -/
def store_u8 (m : Nat → Nat) (a : Nat) (v : Nat) : Nat → Nat :=
  store_u1 (store_u1 (store_u1 (store_u1 (store_u1 (store_u1 (store_u1 (store_u1 m
    a v) (a + 1) (v / 256)) (a + 2) (v / 65536)) (a + 3) (v / 16777216))
    (a + 4) (v / 4294967296)) (a + 5) (v / 1099511627776))
    (a + 6) (v / 281474976710656)) (a + 7) (v / 72057594037927936)

/-- Source: `info_pointer_addr(InstanceKlass* klass)`, the address of element
`-1` of `klass` viewed as an array of `RunTimeClassInfo*`. -/
def info_pointer_addr (klass : Nat) : Nat :=
  klass - sizeof_RunTimeClassInfo_ptr * 1

/-- Source: `get_for(InstanceKlass* klass)`. -/
def get_for (h : Heap) (klass : Nat) : Option Nat :=
  if (h.klass_at klass).is_shared then some (load_u8 h.mem (info_pointer_addr klass)) else none

/-- Modelled from the spec: the archive builder (cds/archiveBuilder.hpp is not
under src/) as far as this header uses it, "a capability query: is this address
inside the buffer under construction": the bounds of that buffer. -/
structure ArchiveBuilder where
  /-- First address of the buffer under construction. -/
  buffer_bottom : Nat
  /-- First address after the buffer under construction. -/
  buffer_top : Nat

/-- Modelled from the spec: `ArchiveBuilder::is_in_buffer_space` (not under
src/), "is this address inside the buffer under construction". -/
def is_in_buffer_space (current : ArchiveBuilder) (p : Nat) : Bool :=
  decide (current.buffer_bottom ≤ p ∧ p < current.buffer_top)

/-- Modelled from the spec: `ArchivePtrMarker::mark_pointer` (cds/archiveUtils.hpp
is not under src/), "a relocation/marking operation invoked on every stored
reference field": the address is added to the set of marked pointer locations. -/
def mark_pointer (ptrmap : Nat → Bool) (p : Nat) : Nat → Bool :=
  fun x => if x = p then true else ptrmap x

/-- Source: `set_for(InstanceKlass* klass, RunTimeClassInfo* record)`;
`current` is `ArchiveBuilder::current()` and `ptrmap` the marked pointer
locations. -/
def set_for (current : ArchiveBuilder) (ptrmap : Nat → Bool) (h : Heap) (klass record : Nat) :
    Option (Heap × (Nat → Bool)) :=
  if is_in_buffer_space current klass then
    if is_in_buffer_space current record then
      some ({ h with mem := store_u8 h.mem (info_pointer_addr klass) record },
        mark_pointer ptrmap (info_pointer_addr klass))
    else none
  else none

/-- Modelled from the spec: the Compact Offset Hash Dictionary
(`OffsetCompactHashtable` of classfile/compactHashtable.hpp is not under src/;
the header only instantiates it as `RunTimeSharedDictionary`): "a
bucket-indexed table of offset-encoded entries, each entry an offset-encoded
name key plus offset-encoded Record reference; bucket count and entry count are
recorded once at the table header". -/
structure RunTimeSharedDictionary where
  /-- Number of buckets, recorded at the table header. -/
  bucket_count : Nat
  /-- Number of entries, recorded at the table header. -/
  entry_count : Nat
  /-- The buckets; an entry is (name-key offset, record offset). -/
  buckets : List (List (Nat × Nat))

/-- Modelled from the spec: the translation done "at build time" in "the
reverse direction" of `offset_to_reference`: a reference becomes its offset
relative to the archive base. -/
def reference_to_offset (base reference : Nat) : Nat := reference - base

/-- Modelled from the spec: `offset_to_reference`, "every access translates
offset to live reference by adding the current base address". -/
def offset_to_reference (base offset : Nat) : Nat := base + offset

/-- Modelled from the spec: "a fixed bucket count chosen at build time
proportional to entry count" (at least one bucket); `bucket_size` is the
constant of proportionality. -/
def num_buckets (entry_count bucket_size : Nat) : Nat := max 1 (entry_count / bucket_size)

/-- Modelled from the spec: the bulk load, "built once (bulk-load, not
incremental) from the complete set of (name, Record) pairs", with "open
hashing"; every link is stored as an offset and `hash` is computed from the
stable (offset) representation of the name. -/
def bulk_load (hash : Nat → Nat) (base bucket_size : Nat) (pairs : List (Nat × Nat)) :
    RunTimeSharedDictionary :=
  let n := num_buckets pairs.length bucket_size
  let entries := pairs.map (fun p => (reference_to_offset base p.1, reference_to_offset base p.2))
  { bucket_count := n
    entry_count := pairs.length
    buckets := (List.range n).map (fun b => entries.filter (fun e => hash e.1 % n = b)) }

/-- Modelled from the spec: `lookup(name) -> Record or not-found`; the bucket
of the name's hash is scanned and "equality is defined as identity equality of
the interned name after translating the stored offset back into a live
reference in the current address space". -/
def lookup (hash : Nat → Nat) (d : RunTimeSharedDictionary) (base name : Nat) : Option Nat :=
  let bucket := d.buckets.getD (hash (reference_to_offset base name) % d.bucket_count) []
  match bucket.find? (fun e => offset_to_reference base e.1 = name) with
  | some e => some (offset_to_reference base e.2)
  | none => none

/-- The live reference at the new base of what `reference` was at the old
base. -/
def relocate (base new_base reference : Nat) : Nat :=
  offset_to_reference new_base (reference_to_offset base reference)

/-! ## Concrete heaps used to instantiate the theorems -/

/-- A class that is neither hidden nor unregistered and has no archived enum
objects. -/
def plain_klass : InstanceKlass :=
  { is_hidden := false, is_shared := true, has_archived_enum_objs := false,
    is_unregistered := false, name := 4096 }

/-- A hidden, unregistered enum class with archived enum objects. -/
def full_klass : InstanceKlass :=
  { is_hidden := true, is_shared := true, has_archived_enum_objs := true,
    is_unregistered := true, name := 8192 }

/-- A heap whose memory is all zero and whose classes are all `plain_klass`. -/
def zero_heap : Heap :=
  { mem := fun _ => 0, klass_at := fun _ => plain_klass, SharedBaseAddress := 0 }

/-- A heap whose memory is all zero and whose classes are all `full_klass`. -/
def full_heap : Heap :=
  { mem := fun _ => 0, klass_at := fun _ => full_klass, SharedBaseAddress := 0 }

/-- The record at address 0 of `full_heap` with the integrity info
`(1024, 0xDEADBEEF)` written to its `CrcInfo` section at offset 16. -/
def crc_heap : Heap :=
  { full_heap with
    mem := store_int (store_int full_heap.mem 16 1024) 20 (to_int 3735928559) }

/-- The record at address 0 of `zero_heap` with 2 verifier constraints, 1 loader
constraint and the flag bytes 5 and 2 (flags at offset 16 + 8 + 16 = 40). -/
def flags_heap : Heap :=
  { zero_heap with
    mem := store_u1 (store_u1 (store_int (store_int zero_heap.mem 8 2) 12 1) 40 5) 41 2 }

/-- The record at address 0 of `full_heap` with enum static-field count 1
written to its `RTEnumKlassStaticFields` section at offset 16 + 8 + 8 = 32. -/
def enum_heap : Heap :=
  { full_heap with mem := store_int full_heap.mem 32 1 }

/-- A class that is not hidden, is unregistered (so it has integrity info) and
has no archived enum objects. -/
def unregistered_klass : InstanceKlass :=
  { is_hidden := false, is_shared := true, has_archived_enum_objs := false,
    is_unregistered := true, name := 12288 }

/-- The record at address 0 of the spec's concrete scenario: a non-hidden
unregistered class, 2 verifier constraints, 1 loader constraint, integrity info
`(1024, 0xDEADBEEF)` at offset 16. -/
def scenario_heap : Heap :=
  { mem := store_int (store_int (store_int (store_int (fun _ => 0) 8 2) 12 1) 16 1024) 20
      (to_int 3735928559),
    klass_at := fun _ => unregistered_klass, SharedBaseAddress := 0 }

/-- The record at address 0 of `full_heap` with 2 verifier constraints and 1
loader constraint. -/
def counts_heap : Heap :=
  { full_heap with mem := store_int (store_int full_heap.mem 8 2) 12 1 }

/-- A heap with one archived class at address 4104 (`plain_klass`, shared), a
class that is not shared everywhere else, and the bytes of the pointer value
8200 stored in the word at 4096. -/
def slot_heap : Heap :=
  { mem := store_u8 (fun _ => 0) 4096 8200,
    klass_at := fun a => if a = 4104 then plain_klass
      else { plain_klass with is_shared := false },
    SharedBaseAddress := 0 }

/-- An archive builder whose buffer is `[4096, 65536)`. -/
def example_builder : ArchiveBuilder :=
  { buffer_bottom := 4096, buffer_top := 65536 }

/-- Three (name, record) pairs of an archive mapped at 4096. -/
def example_pairs : List (Nat × Nat) := [(4100, 5000), (4200, 6000), (4300, 7000)]

/-- A hash of the name offset. -/
def example_hash (offset : Nat) : Nat := offset / 4 + 3

/-! ## Arithmetic facts about the size helpers -/

theorem word_dvd_align_up (x : Nat) : wordSize ∣ align_up x wordSize :=
  Dvd.intro_left _ rfl

theorem word_dvd_add_mod (a b : Nat) (ha : wordSize ∣ a) (hb : wordSize ∣ b) :
    wordSize ∣ (a + b) % SIZE_T_MOD := by
  unfold wordSize SIZE_T_MOD at *
  omega

theorem word_dvd_header_size_size : wordSize ∣ header_size_size :=
  word_dvd_align_up _

theorem word_dvd_crc_size (h : Heap) (k : Nat) : wordSize ∣ crc_size h k := by
  unfold crc_size wordSize sizeof_CrcInfo
  split <;> decide

theorem word_dvd_nest_host_size (h : Heap) (k : Nat) : wordSize ∣ nest_host_size h k := by
  unfold nest_host_size wordSize sizeof_InstanceKlass_ptr
  split <;> decide

/-! ## C1 -/

/-- C1: `byte_size` is a function of the class (what the header observes of it)
and of the three counts alone - two calls with the same class and counts give
the same value, whatever the memory holds - and its value is a multiple of
`wordSize`, for all counts (non-negative or not). -/
theorem byte_size_deterministic_word_multiple (h h' : Heap) (k k' : Nat) (nv nl ne : Int)
    (hk : h.klass_at k = h'.klass_at k') :
    byte_size h k nv nl ne = byte_size h' k' nv nl ne ∧ wordSize ∣ byte_size h k nv nl ne := by
  refine ⟨?_, ?_⟩
  · simp only [byte_size, crc_size, nest_host_size, hk]
  · unfold byte_size
    exact word_dvd_add_mod _ _ (word_dvd_add_mod _ _ (word_dvd_add_mod _ _
      (word_dvd_add_mod _ _ (word_dvd_add_mod _ _ (word_dvd_add_mod _ _
        word_dvd_header_size_size (word_dvd_crc_size h k)) (word_dvd_nest_host_size h k))
        (word_dvd_align_up _)) (word_dvd_align_up _)) (word_dvd_align_up _))
      (word_dvd_align_up _)

/-- C1 at a concrete input: a hidden unregistered class, 2 verifier
constraints, 1 loader constraint, 3 enum fields, in two different heaps. -/
theorem byte_size_deterministic_word_multiple_witness :
    full_heap.klass_at 64 = { full_heap with mem := fun _ => 255 }.klass_at 64 ∧
    (byte_size full_heap 64 2 1 3 = byte_size { full_heap with mem := fun _ => 255 } 64 2 1 3 ∧
      wordSize ∣ byte_size full_heap 64 2 1 3) :=
  ⟨rfl, byte_size_deterministic_word_multiple full_heap { full_heap with mem := fun _ => 255 }
    64 64 2 1 3 rfl⟩

/-! ## Closed forms of the sizes for counts in the range of `int` -/

theorem to_size_t_of_nonneg (n : Int) (h0 : 0 ≤ n) (h1 : n ≤ 2147483647) :
    to_size_t n = n.toNat := by
  unfold to_size_t SIZE_T_MOD
  norm_num
  omega

theorem load_int_is_int32 (m : Nat → Nat) (a : Nat) : is_int32 (load_int m a) := by
  unfold is_int32 load_int load_u4 load_u1
  split <;> omega

theorem header_size_size_eq : header_size_size = 16 := by decide

theorem verifier_constraints_size_eq (n : Int) (h0 : 0 ≤ n) (h1 : n ≤ 2147483647) :
    verifier_constraints_size n = 8 * n.toNat := by
  unfold verifier_constraints_size align_up wordSize sizeof_RTVerifierConstraint
  rw [to_size_t_of_nonneg n h0 h1]
  unfold SIZE_T_MOD
  omega

theorem loader_constraints_size_eq (n : Int) (h0 : 0 ≤ n) (h1 : n ≤ 2147483647) :
    loader_constraints_size n = 8 * n.toNat := by
  unfold loader_constraints_size align_up wordSize sizeof_RTLoaderConstraint
  rw [to_size_t_of_nonneg n h0 h1]
  unfold SIZE_T_MOD
  omega

theorem verifier_constraint_flags_size_eq (n : Int) (h0 : 0 ≤ n) (h1 : n ≤ 2147483647) :
    verifier_constraint_flags_size n = (n.toNat + 7) / 8 * 8 := by
  unfold verifier_constraint_flags_size align_up wordSize sizeof_char
  rw [to_size_t_of_nonneg n h0 h1]
  unfold SIZE_T_MOD
  omega

theorem enum_klass_static_fields_size_nonpos (n : Int) (h0 : n ≤ 0) :
    enum_klass_static_fields_size n = 0 := by
  unfold enum_klass_static_fields_size
  simp only [h0, if_true]
  decide

theorem enum_klass_static_fields_size_pos (n : Int) (h0 : 0 < n) (h1 : n ≤ 2147483647) :
    enum_klass_static_fields_size n = (4 + 4 * n.toNat + 7) / 8 * 8 := by
  unfold enum_klass_static_fields_size align_up wordSize sizeof_RTEnumKlassStaticFields
    sizeof_int
  rw [to_size_t_of_nonneg (n - 1) (by omega) (by omega)]
  have hn : ¬ n ≤ 0 := by omega
  simp only [hn, if_false]
  unfold SIZE_T_MOD
  omega

theorem crc_size_le (h : Heap) (k : Nat) : crc_size h k ≤ 8 := by
  unfold crc_size sizeof_CrcInfo
  split <;> omega

theorem nest_host_size_le (h : Heap) (k : Nat) : nest_host_size h k ≤ 8 := by
  unfold nest_host_size sizeof_InstanceKlass_ptr
  split <;> omega

/-- With non-negative stored counts no offset computation wraps: every offset
is the plain sum of the sizes of the sections before it. -/
theorem offsets_plain_sum (h : Heap) (this : Nat)
    (hv : 0 ≤ _num_verifier_constraints h this) (hl : 0 ≤ _num_loader_constraints h this) :
    nest_host_offset h this = 16 + crc_size h (klass h this) ∧
    loader_constraints_offset h this
      = 16 + crc_size h (klass h this) + nest_host_size h (klass h this) ∧
    verifier_constraints_offset h this
      = 16 + crc_size h (klass h this) + nest_host_size h (klass h this)
        + 8 * (_num_loader_constraints h this).toNat ∧
    verifier_constraint_flags_offset h this
      = 16 + crc_size h (klass h this) + nest_host_size h (klass h this)
        + 8 * (_num_loader_constraints h this).toNat
        + 8 * (_num_verifier_constraints h this).toNat ∧
    enum_klass_static_fields_offset h this
      = 16 + crc_size h (klass h this) + nest_host_size h (klass h this)
        + 8 * (_num_loader_constraints h this).toNat
        + 8 * (_num_verifier_constraints h this).toNat
        + ((_num_verifier_constraints h this).toNat + 7) / 8 * 8 := by
  have hvr := (load_int_is_int32 h.mem (this + 8)).2
  have hlr := (load_int_is_int32 h.mem (this + 12)).2
  have hc := crc_size_le h (klass h this)
  have hn := nest_host_size_le h (klass h this)
  unfold enum_klass_static_fields_offset verifier_constraint_flags_offset
    verifier_constraints_offset loader_constraints_offset nest_host_offset crc_offset
  rw [verifier_constraint_flags_size_eq _ hv hvr, verifier_constraints_size_eq _ hv hvr,
    loader_constraints_size_eq _ hl hlr, header_size_size_eq]
  unfold SIZE_T_MOD
  change 0 ≤ load_int h.mem (this + 8) at hv
  change 0 ≤ load_int h.mem (this + 12) at hl
  unfold _num_verifier_constraints _num_loader_constraints
  omega

/-! ## C2 -/

/-- C3: the size computed at build time from the class and counts stored in a
record's header is the end of the last section as the accessor offsets compute
it: `byte_size` is `enum_klass_static_fields_offset() +
enum_klass_static_fields_size(ne)` as a `size_t` sum for every record and every
`ne`, and that sum does not wrap when the stored counts are non-negative and
`ne` is an `int`. -/
theorem byte_size_eq_end_of_last_section (h : Heap) (this : Nat) (ne : Int) :
    byte_size h (klass h this) (_num_verifier_constraints h this)
        (_num_loader_constraints h this) ne
      = (enum_klass_static_fields_offset h this + enum_klass_static_fields_size ne)
          % SIZE_T_MOD ∧
    (0 ≤ _num_verifier_constraints h this → 0 ≤ _num_loader_constraints h this →
      is_int32 ne →
      byte_size h (klass h this) (_num_verifier_constraints h this)
          (_num_loader_constraints h this) ne
        = enum_klass_static_fields_offset h this + enum_klass_static_fields_size ne) := by
  have key : byte_size h (klass h this) (_num_verifier_constraints h this)
        (_num_loader_constraints h this) ne
      = (enum_klass_static_fields_offset h this + enum_klass_static_fields_size ne)
          % SIZE_T_MOD := rfl
  refine ⟨key, ?_⟩
  intro hv hl hne
  rw [key]
  have hvr := (load_int_is_int32 h.mem (this + 8)).2
  have hlr := (load_int_is_int32 h.mem (this + 12)).2
  change _num_verifier_constraints h this ≤ 2147483647 at hvr
  change _num_loader_constraints h this ≤ 2147483647 at hlr
  have hc := crc_size_le h (klass h this)
  have hn := nest_host_size_le h (klass h this)
  obtain ⟨_, _, _, _, e5⟩ := offsets_plain_sum h this hv hl
  rw [e5]
  unfold SIZE_T_MOD
  apply Nat.mod_eq_of_lt
  rcases le_or_lt ne 0 with h0 | h0
  · rw [enum_klass_static_fields_size_nonpos ne h0]
    omega
  · rw [enum_klass_static_fields_size_pos ne h0 hne.2]
    have := hne.2
    omega

/-- C3 at a concrete record: the all-zero record of a hidden unregistered enum
class, with 3 enum static fields. -/
theorem byte_size_eq_end_of_last_section_witness :
    0 ≤ _num_verifier_constraints full_heap 0 ∧ 0 ≤ _num_loader_constraints full_heap 0 ∧
    is_int32 3 ∧
    byte_size full_heap (klass full_heap 0) (_num_verifier_constraints full_heap 0)
        (_num_loader_constraints full_heap 0) 3
      = enum_klass_static_fields_offset full_heap 0 + enum_klass_static_fields_size 3 :=
  ⟨by decide, by decide, by decide,
    (byte_size_eq_end_of_last_section full_heap 0 3).2 (by decide) (by decide) (by decide)⟩

/-! ## C4 -/

/-- C4: a section's size is zero exactly when its governing predicate is
false: the nest-host size is nonzero iff the class is hidden; for an `int`
count `n ≥ 0` the loader-constraint, verifier-constraint and verifier-flag
sizes are zero iff `n = 0`; and for every `int` `n` the enum-static-fields
size is zero iff `n ≤ 0`. -/
theorem section_size_zero_iff (h : Heap) (k : Nat) (n : Int) (hn : is_int32 n) :
    (nest_host_size h k ≠ 0 ↔ (h.klass_at k).is_hidden = true) ∧
    (0 ≤ n →
      (loader_constraints_size n = 0 ↔ n = 0) ∧
      (verifier_constraints_size n = 0 ↔ n = 0) ∧
      (verifier_constraint_flags_size n = 0 ↔ n = 0)) ∧
    (enum_klass_static_fields_size n = 0 ↔ n ≤ 0) := by
  refine ⟨?_, ?_, ?_⟩
  · unfold nest_host_size sizeof_InstanceKlass_ptr
    cases (h.klass_at k).is_hidden <;> simp
  · intro h0
    rw [loader_constraints_size_eq n h0 hn.2, verifier_constraints_size_eq n h0 hn.2,
      verifier_constraint_flags_size_eq n h0 hn.2]
    refine ⟨?_, ?_, ?_⟩ <;> omega
  · rcases le_or_lt n 0 with h0 | h0
    · rw [enum_klass_static_fields_size_nonpos n h0]
      simp [h0]
    · rw [enum_klass_static_fields_size_pos n h0 hn.2]
      omega

/-- C4 at a concrete input: a hidden class and the count 1. -/
theorem section_size_zero_iff_witness :
    is_int32 1 ∧ (nest_host_size full_heap 64 ≠ 0 ↔ (full_heap.klass_at 64).is_hidden = true) ∧
    ¬ (verifier_constraint_flags_size 1 = 0) ∧ ¬ (enum_klass_static_fields_size 1 = 0) :=
  have w := section_size_zero_iff full_heap 64 1 (by decide)
  ⟨by decide, w.1, fun e => absurd ((w.2.1 (by decide)).2.2.1 e) (by decide),
    fun e => absurd (w.2.2.1 e) (by decide)⟩

/-! ## C5 -/

/-- C5: for every `int` `n`, `enum_klass_static_fields_size(n)` is 0 when
`n ≤ 0`; otherwise it is `sizeof(RTEnumKlassStaticFields) + (n - 1) *
sizeof(int)` rounded up to `wordSize`, where that byte count is one `int` for
the stored count plus `n` `int` index slots and the rounded value is the least
multiple of `wordSize` holding it. -/
theorem enum_klass_static_fields_size_spec (n : Int) (hn : is_int32 n) :
    (n ≤ 0 → enum_klass_static_fields_size n = 0) ∧
    (0 < n →
      enum_klass_static_fields_size n
        = align_up (sizeof_RTEnumKlassStaticFields + (n.toNat - 1) * sizeof_int) wordSize ∧
      sizeof_RTEnumKlassStaticFields + (n.toNat - 1) * sizeof_int
        = sizeof_int + n.toNat * sizeof_int ∧
      wordSize ∣ enum_klass_static_fields_size n ∧
      sizeof_int + n.toNat * sizeof_int ≤ enum_klass_static_fields_size n ∧
      enum_klass_static_fields_size n < sizeof_int + n.toNat * sizeof_int + wordSize) := by
  refine ⟨enum_klass_static_fields_size_nonpos n, ?_⟩
  intro h0
  rw [enum_klass_static_fields_size_pos n h0 hn.2]
  have h1 := hn.2
  unfold align_up SIZE_T_MOD wordSize sizeof_RTEnumKlassStaticFields sizeof_int
  refine ⟨?_, ?_, ?_, ?_, ?_⟩ <;> omega

/-- C5 at concrete inputs: the counts 0 and 3. -/
theorem enum_klass_static_fields_size_spec_witness :
    is_int32 3 ∧ enum_klass_static_fields_size 0 = 0 ∧
    enum_klass_static_fields_size 3
      = align_up (sizeof_RTEnumKlassStaticFields + ((3 : Int).toNat - 1) * sizeof_int)
          wordSize :=
  ⟨by decide, (enum_klass_static_fields_size_spec 0 (by decide)).1 (by decide),
    ((enum_klass_static_fields_size_spec 3 (by decide)).2 (by decide)).1⟩

/-! ## Byte memory: loads after stores -/

theorem store_int_apply_of_disjoint (m : Nat → Nat) (a : Nat) (v : Int) (x : Nat)
    (hx : x < a ∨ a + 4 ≤ x) : store_int m a v x = m x := by
  unfold store_int store_u4 store_u1
  have h0 : x ≠ a := by omega
  have h1 : x ≠ a + 1 := by omega
  have h2 : x ≠ a + 2 := by omega
  have h3 : x ≠ a + 3 := by omega
  simp only [h0, h1, h2, h3, if_false]

theorem load_u1_store_int_of_disjoint (m : Nat → Nat) (a : Nat) (v : Int) (x : Nat)
    (hx : x < a ∨ a + 4 ≤ x) : load_u1 (store_int m a v) x = load_u1 m x := by
  unfold load_u1
  rw [store_int_apply_of_disjoint m a v x hx]

theorem load_u4_store_int_of_disjoint (m : Nat → Nat) (a : Nat) (v : Int) (b : Nat)
    (hb : b + 4 ≤ a ∨ a + 4 ≤ b) : load_u4 (store_int m a v) b = load_u4 m b := by
  unfold load_u4
  rw [load_u1_store_int_of_disjoint m a v b (by omega),
    load_u1_store_int_of_disjoint m a v (b + 1) (by omega),
    load_u1_store_int_of_disjoint m a v (b + 2) (by omega),
    load_u1_store_int_of_disjoint m a v (b + 3) (by omega)]

theorem load_int_store_int_of_disjoint (m : Nat → Nat) (a : Nat) (v : Int) (b : Nat)
    (hb : b + 4 ≤ a ∨ a + 4 ≤ b) : load_int (store_int m a v) b = load_int m b := by
  unfold load_int
  rw [load_u4_store_int_of_disjoint m a v b hb]

theorem load_u4_store_int_same (m : Nat → Nat) (a : Nat) (v : Int) :
    load_u4 (store_int m a v) a = (v % 4294967296).toNat := by
  unfold load_u4 load_u1 store_int store_u4 store_u1
  have h1 : a ≠ a + 1 := by omega
  have h2 : a ≠ a + 2 := by omega
  have h3 : a ≠ a + 3 := by omega
  have h4 : a + 1 ≠ a + 2 := by omega
  have h5 : a + 1 ≠ a + 3 := by omega
  have h6 : a + 2 ≠ a + 3 := by omega
  simp only [h1, h2, h3, h4, h5, h6, if_false, if_true]
  have hu : (v % 4294967296).toNat < 4294967296 := by omega
  generalize (v % 4294967296).toNat = u at hu ⊢
  omega

theorem load_int_store_int_same (m : Nat → Nat) (a : Nat) (v : Int) (hv : is_int32 v) :
    load_int (store_int m a v) a = v := by
  unfold load_int
  rw [load_u4_store_int_same]
  obtain ⟨h0, h1⟩ := hv
  split <;> omega

/-! ## C6 -/

/-- C6: on a record whose integrity-info section is present and stores size
`s0` and checksum `c0`, `matches(s, c)` returns true iff `s = s0` and `c = c0`;
with `(1024, 0xDEADBEEF)` stored, `matches(1024, 0xDEADBEEF)` is true and
`matches(1024, 0)` is false (`0xDEADBEEF` converted to `int`). -/
theorem matches_iff_stored (h : Heap) (this : Nat) (s0 c0 s c : Int)
    (hp : 0 < crc_size h (klass h this))
    (hs : load_int h.mem (this + crc_offset h this) = s0)
    (hc : load_int h.mem (this + crc_offset h this + 4) = c0) :
    «matches» h this s c = some (decide (s = s0 ∧ c = c0)) ∧
    (s0 = 1024 → c0 = to_int 3735928559 →
      «matches» h this 1024 (to_int 3735928559) = some true ∧
      «matches» h this 1024 0 = some false) := by
  have key : ∀ s c : Int, «matches» h this s c = some (decide (s = s0 ∧ c = c0)) := by
    intro s c
    have hcrc : crc h this = some (this + crc_offset h this) := by
      unfold crc
      simp only [gt_iff_lt, hp, if_true]
    unfold «matches»
    simp only [hcrc, Option.bind_eq_bind, Option.some_bind, hs, hc]
    by_cases e : s0 = s
    · subst e
      by_cases e2 : c0 = c
      · subst e2
        simp
      · have e3 : ¬ c = c0 := fun x => e2 x.symm
        simp [e2, e3]
    · have e3 : ¬ s = s0 := fun x => e x.symm
      simp [e, e3]
  refine ⟨key s c, ?_⟩
  intro e1 e2
  subst e1 e2
  refine ⟨?_, ?_⟩
  · rw [key]; decide
  · rw [key]; decide

/-- C6 at a concrete record: `crc_heap` stores `(1024, 0xDEADBEEF)`. -/
theorem matches_iff_stored_witness :
    0 < crc_size crc_heap (klass crc_heap 0) ∧
    load_int crc_heap.mem (0 + crc_offset crc_heap 0) = 1024 ∧
    load_int crc_heap.mem (0 + crc_offset crc_heap 0 + 4) = to_int 3735928559 ∧
    «matches» crc_heap 0 1024 (to_int 3735928559) = some true ∧
    «matches» crc_heap 0 1024 0 = some false ∧
    «matches» crc_heap 0 1023 (to_int 3735928559) = some (decide ((1023 : Int) = 1024 ∧
      to_int 3735928559 = to_int 3735928559)) :=
  have w := matches_iff_stored crc_heap 0 1024 (to_int 3735928559) 1023 (to_int 3735928559)
    (by decide) (by decide) (by decide)
  ⟨by decide, by decide, by decide, (w.2 rfl rfl).1, (w.2 rfl rfl).2, w.1⟩

/-! ## C7 -/

/-- C7: on a record whose class has no integrity-info section
(`crc_size(klass()) = 0`) the section takes no bytes - `nest_host_offset()` is
`crc_offset()` and `byte_size` is the sum of the other sections - and `crc()`
and `matches(s, c)` fail their assertion for every `s` and `c`. -/
theorem absent_crc_section (h : Heap) (this : Nat)
    (hz : crc_size h (klass h this) = 0) :
    nest_host_offset h this = crc_offset h this ∧
    (∀ nv nl ne : Int,
      byte_size h (klass h this) nv nl ne
        = (((((header_size_size
            + nest_host_size h (klass h this)) % SIZE_T_MOD
            + loader_constraints_size nl) % SIZE_T_MOD
            + verifier_constraints_size nv) % SIZE_T_MOD
            + verifier_constraint_flags_size nv) % SIZE_T_MOD
            + enum_klass_static_fields_size ne) % SIZE_T_MOD) ∧
    crc h this = none ∧
    (∀ s c : Int, «matches» h this s c = none) := by
  have hcrc : crc h this = none := by
    unfold crc
    simp [hz]
  refine ⟨?_, ?_, hcrc, ?_⟩
  · unfold nest_host_offset crc_offset
    rw [hz, header_size_size_eq]
    decide
  · intro nv nl ne
    unfold byte_size
    rw [hz, header_size_size_eq]
    rfl
  · intro s c
    unfold «matches»
    simp [hcrc]

/-- C7 at a concrete record: the all-zero record of a plain class. -/
theorem absent_crc_section_witness :
    crc_size zero_heap (klass zero_heap 0) = 0 ∧
    nest_host_offset zero_heap 0 = crc_offset zero_heap 0 ∧
    crc zero_heap 0 = none ∧ «matches» zero_heap 0 0 0 = none :=
  have w := absent_crc_section zero_heap 0 (by decide)
  ⟨by decide, w.1, w.2.2.1, w.2.2.2 0 0⟩

/-! ## C8 -/

/-- C8: `verifier_constraint_at(i)` and `verifier_constraint_flag(i)` complete
without an assertion failure iff `0 <= i < num_verifier_constraints()`, and
`loader_constraint_at(i)` iff `0 <= i < num_loader_constraints()`; once the
index check has passed, the `count > 0` assertion of `verifier_constraints()`,
`verifier_constraint_flags()` and `loader_constraints()` holds. -/
theorem indexed_accessors_complete_iff_in_range (h : Heap) (this : Nat) (i : Int) :
    ((verifier_constraint_at h this i).isSome = true
      ↔ 0 ≤ i ∧ i < num_verifier_constraints h this) ∧
    ((verifier_constraint_flag h this i).isSome = true
      ↔ 0 ≤ i ∧ i < num_verifier_constraints h this) ∧
    ((loader_constraint_at h this i).isSome = true
      ↔ 0 ≤ i ∧ i < num_loader_constraints h this) ∧
    (check_verifier_constraint_offset h this i = some () →
      (verifier_constraints h this).isSome = true ∧
      (verifier_constraint_flags h this).isSome = true) ∧
    (check_loader_constraint_offset h this i = some () →
      (loader_constraints h this).isSome = true) := by
  unfold verifier_constraint_at verifier_constraint_flag loader_constraint_at
    check_verifier_constraint_offset check_loader_constraint_offset verifier_constraints
    verifier_constraint_flags loader_constraints num_verifier_constraints
    num_loader_constraints
  refine ⟨?_, ?_, ?_, ?_, ?_⟩
  · by_cases hr : 0 ≤ i ∧ i < _num_verifier_constraints h this
    · have hpos : _num_verifier_constraints h this > 0 := by omega
      simp [hr, hpos]
    · simp [hr]
  · by_cases hr : 0 ≤ i ∧ i < _num_verifier_constraints h this
    · have hpos : _num_verifier_constraints h this > 0 := by omega
      simp [hr, hpos]
    · simp [hr]
  · by_cases hr : 0 ≤ i ∧ i < _num_loader_constraints h this
    · have hpos : _num_loader_constraints h this > 0 := by omega
      simp [hr, hpos]
    · simp [hr]
  · by_cases hr : 0 ≤ i ∧ i < _num_verifier_constraints h this
    · have hpos : _num_verifier_constraints h this > 0 := by omega
      simp [hr, hpos]
    · simp [hr]
  · by_cases hr : 0 ≤ i ∧ i < _num_loader_constraints h this
    · have hpos : _num_loader_constraints h this > 0 := by omega
      simp [hr, hpos]
    · simp [hr]

/-- C8 at a concrete record: `flags_heap` has 2 verifier constraints and 1
loader constraint; index 1 is in range for the former only. -/
theorem indexed_accessors_complete_iff_in_range_witness :
    check_verifier_constraint_offset flags_heap 0 1 = some () ∧
    (verifier_constraints flags_heap 0).isSome = true ∧
    (verifier_constraint_flags flags_heap 0).isSome = true ∧
    (verifier_constraint_at flags_heap 0 1).isSome = true ∧
    ¬ ((loader_constraint_at flags_heap 0 1).isSome = true) :=
  have w := indexed_accessors_complete_iff_in_range flags_heap 0 1
  ⟨by decide, (w.2.2.2.1 (by decide)).1, (w.2.2.2.1 (by decide)).2, w.1.2 (by decide),
    fun e => absurd (w.2.2.1.1 e) (by decide)⟩

/-! ## C9 -/

theorem and_two_pow_ne_zero (b k : Nat) : ((b &&& 2 ^ k) != 0) = b.testBit k := by
  cases hb : b.testBit k
  · have hz : b &&& 2 ^ k = 0 := by
      apply Nat.eq_of_testBit_eq
      intro i
      rw [Nat.testBit_and, Nat.testBit_two_pow, Nat.zero_testBit]
      by_cases e : k = i
      · subst e
        simp [hb]
      · simp [e]
    simp [hz]
  · have ht : (b &&& 2 ^ k).testBit k = true := by
      rw [Nat.testBit_and, Nat.testBit_two_pow_self, hb]
      rfl
    have hne : b &&& 2 ^ k ≠ 0 := by
      intro e
      rw [e, Nat.zero_testBit] at ht
      exact Bool.noConfusion ht
    simp [hne]

theorem verifier_constraint_flag_in_range (h : Heap) (this : Nat) (i : Int)
    (hi : 0 ≤ i ∧ i < num_verifier_constraints h this) :
    verifier_constraint_flag h this i
      = some (load_u1 h.mem (this + verifier_constraint_flags_offset h this + i.toNat)) := by
  unfold num_verifier_constraints at hi
  have hpos : _num_verifier_constraints h this > 0 := by omega
  unfold verifier_constraint_flag check_verifier_constraint_offset verifier_constraint_flags
    sizeof_char
  simp [hi, hpos]

/-- C9: for an in-range index `i` whose stored flag byte is `b`,
`from_field_is_protected(i)`, `from_is_array(i)` and `from_is_object(i)` are
bit 0, bit 1 and bit 2 of `b`; hence a byte made by OR-ing
`FROM_FIELD_IS_PROTECTED`, `FROM_IS_ARRAY` and `FROM_IS_OBJECT` according to
three booleans decodes back to those three booleans. -/
theorem verifier_flags_are_bits (h : Heap) (this : Nat) (i : Int) (b : Nat)
    (hi : 0 ≤ i ∧ i < num_verifier_constraints h this)
    (hb : load_u1 h.mem (this + verifier_constraint_flags_offset h this + i.toNat) = b) :
    from_field_is_protected h this i = some (b.testBit 0) ∧
    from_is_array h this i = some (b.testBit 1) ∧
    from_is_object h this i = some (b.testBit 2) ∧
    (∀ p a o : Bool,
      b = ((if p then FROM_FIELD_IS_PROTECTED else 0) ||| (if a then FROM_IS_ARRAY else 0)
            ||| (if o then FROM_IS_OBJECT else 0)) →
      from_field_is_protected h this i = some p ∧
      from_is_array h this i = some a ∧
      from_is_object h this i = some o) := by
  have hf := verifier_constraint_flag_in_range h this i hi
  rw [hb] at hf
  have e0 : from_field_is_protected h this i = some (b.testBit 0) := by
    unfold from_field_is_protected
    rw [hf]
    have := and_two_pow_ne_zero b 0
    simpa [FROM_FIELD_IS_PROTECTED] using this
  have e1 : from_is_array h this i = some (b.testBit 1) := by
    unfold from_is_array
    rw [hf]
    have := and_two_pow_ne_zero b 1
    simpa [FROM_IS_ARRAY] using this
  have e2 : from_is_object h this i = some (b.testBit 2) := by
    unfold from_is_object
    rw [hf]
    have := and_two_pow_ne_zero b 2
    simpa [FROM_IS_OBJECT] using this
  refine ⟨e0, e1, e2, ?_⟩
  intro p a o hpao
  rw [e0, e1, e2, hpao]
  cases p <;> cases a <;> cases o <;> decide

/-- C9 at a concrete record: `flags_heap` stores the flag byte 5 =
`FROM_FIELD_IS_PROTECTED | FROM_IS_OBJECT` at index 0. -/
theorem verifier_flags_are_bits_witness :
    (0 ≤ (0 : Int) ∧ (0 : Int) < num_verifier_constraints flags_heap 0) ∧
    load_u1 flags_heap.mem
      (0 + verifier_constraint_flags_offset flags_heap 0 + (0 : Int).toNat) = 5 ∧
    from_field_is_protected flags_heap 0 0 = some true ∧
    from_is_array flags_heap 0 0 = some false ∧
    from_is_object flags_heap 0 0 = some true :=
  have w := verifier_flags_are_bits flags_heap 0 0 5 (by decide) (by decide)
  ⟨by decide, by decide, w.2.2.2 true false true (by decide)⟩

/-! ## C10 -/

/-- A memory that agrees with the old one on the 16 header bytes of a record
gives the record the same class, counts and enum-section address. -/
theorem header_frame (h : Heap) (this : Nat) (m : Nat → Nat)
    (hm : ∀ x, this ≤ x → x < this + 16 → m x = h.mem x) :
    enum_klass_static_fields_addr { h with mem := m } this
      = enum_klass_static_fields_addr h this := by
  have b0 := hm this (by omega) (by omega)
  have b1 := hm (this + 1) (by omega) (by omega)
  have b2 := hm (this + 2) (by omega) (by omega)
  have b3 := hm (this + 3) (by omega) (by omega)
  have b8 := hm (this + 8) (by omega) (by omega)
  have b9 := hm (this + 8 + 1) (by omega) (by omega)
  have b10 := hm (this + 8 + 2) (by omega) (by omega)
  have b11 := hm (this + 8 + 3) (by omega) (by omega)
  have b12 := hm (this + 12) (by omega) (by omega)
  have b13 := hm (this + 12 + 1) (by omega) (by omega)
  have b14 := hm (this + 12 + 2) (by omega) (by omega)
  have b15 := hm (this + 12 + 3) (by omega) (by omega)
  simp only [enum_klass_static_fields_addr, enum_klass_static_fields_offset,
    verifier_constraint_flags_offset, verifier_constraints_offset, loader_constraints_offset,
    nest_host_offset, crc_offset, crc_size, nest_host_size, klass, _klass_offset,
    _num_verifier_constraints, _num_loader_constraints, load_int, load_u4, load_u1,
    b0, b1, b2, b3, b8, b9, b10, b11, b12, b13, b14, b15]

theorem enum_klass_static_fields_addr_eq (h : Heap) (this : Nat)
    (he : (h.klass_at (klass h this)).has_archived_enum_objs = true) :
    enum_klass_static_fields_addr h this
      = some (this + enum_klass_static_fields_offset h this) := by
  unfold enum_klass_static_fields_addr
  simp only [he, if_true]

theorem enum_root_index_at_eq (h : Heap) (this p : Nat) (j : Int)
    (ha : enum_klass_static_fields_addr h this = some p)
    (h0 : 0 ≤ j) (h1 : j < load_int h.mem p) :
    enum_klass_static_field_root_index_at h this j
      = some (load_int h.mem (p + 4 + 4 * j.toNat)) := by
  unfold enum_klass_static_field_root_index_at sizeof_int
  simp [ha, h0, h1]

theorem set_enum_root_index_at_eq (h : Heap) (this p : Nat) (j v : Int)
    (ha : enum_klass_static_fields_addr h this = some p)
    (h0 : 0 ≤ j) (h1 : j < load_int h.mem p) :
    set_enum_klass_static_field_root_index_at h this j v
      = some { h with mem := store_int h.mem (p + 4 + 4 * j.toNat) v } := by
  unfold set_enum_klass_static_field_root_index_at sizeof_int
  simp [ha, h0, h1]

/-- Writing a root index in range leaves the enum section where it is, is read
back, and changes neither the stored count nor any other root index. -/
theorem set_enum_root_index_at_frame (h : Heap) (this p : Nat) (n i v : Int)
    (ha : enum_klass_static_fields_addr h this = some p) (hp : this + 16 ≤ p)
    (hcount : load_int h.mem p = n) (h0 : 0 ≤ i) (h1 : i < n) (hvr : is_int32 v) :
    ∃ g, set_enum_klass_static_field_root_index_at h this i v = some g ∧
      enum_klass_static_field_root_index_at g this i = some v ∧
      (∀ j : Int, num_enum_klass_static_fields g this j = some n) ∧
      ∀ j : Int, 0 ≤ j → j < n → j ≠ i →
        enum_klass_static_field_root_index_at g this j
          = enum_klass_static_field_root_index_at h this j := by
  have hi : i < load_int h.mem p := by omega
  have hg : enum_klass_static_fields_addr
      { h with mem := store_int h.mem (p + 4 + 4 * i.toNat) v } this = some p := by
    rw [header_frame h this _ (fun x _ hx =>
      store_int_apply_of_disjoint h.mem (p + 4 + 4 * i.toNat) v x (by omega))]
    exact ha
  have hcount2 : load_int (store_int h.mem (p + 4 + 4 * i.toNat) v) p = n := by
    rw [load_int_store_int_of_disjoint _ _ _ _ (by omega)]
    exact hcount
  refine ⟨{ h with mem := store_int h.mem (p + 4 + 4 * i.toNat) v }, ?_, ?_, ?_, ?_⟩
  · exact set_enum_root_index_at_eq h this p i v ha h0 hi
  · rw [enum_root_index_at_eq _ this p i hg h0 (by
      show i < load_int (store_int h.mem (p + 4 + 4 * i.toNat) v) p
      omega)]
    show some (load_int (store_int h.mem (p + 4 + 4 * i.toNat) v) (p + 4 + 4 * i.toNat))
      = some v
    rw [load_int_store_int_same _ _ _ hvr]
  · intro j
    unfold num_enum_klass_static_fields
    simp [hg, hcount2]
  · intro j hj0 hj1 hji
    rw [enum_root_index_at_eq _ this p j hg hj0 (by
      show j < load_int (store_int h.mem (p + 4 + 4 * i.toNat) v) p
      omega)]
    rw [enum_root_index_at_eq h this p j ha hj0 (by omega)]
    show some (load_int (store_int h.mem (p + 4 + 4 * i.toNat) v) (p + 4 + 4 * j.toNat))
      = some (load_int h.mem (p + 4 + 4 * j.toNat))
    rw [load_int_store_int_of_disjoint _ _ _ _ (by omega)]

/-- C10: on a record (non-negative stored counts) of a class with archived
enum objects, `set_num_enum_klass_static_fields(n)` succeeds and
`num_enum_klass_static_fields` then returns `n`; after it, for `0 <= i < n` and
every `int` `v`, `set_enum_klass_static_field_root_index_at(i, v)` succeeds,
`enum_klass_static_field_root_index_at(i)` then returns `v`, the stored count
is still `n`, and every other index `j` (`0 <= j < n`, `j != i`) reads as
before.  The same holds of the setter on any such record that already stores
the count `n`. -/
theorem enum_static_fields_round_trip (h : Heap) (this : Nat)
    (hv : 0 ≤ _num_verifier_constraints h this) (hl : 0 ≤ _num_loader_constraints h this)
    (he : (h.klass_at (klass h this)).has_archived_enum_objs = true) :
    (∀ n : Int, is_int32 n →
      ∃ g, set_num_enum_klass_static_fields h this n = some g ∧
        (∀ j : Int, num_enum_klass_static_fields g this j = some n) ∧
        ∀ i v : Int, 0 ≤ i → i < n → is_int32 v →
          ∃ f, set_enum_klass_static_field_root_index_at g this i v = some f ∧
            enum_klass_static_field_root_index_at f this i = some v ∧
            (∀ j : Int, num_enum_klass_static_fields f this j = some n) ∧
            ∀ j : Int, 0 ≤ j → j < n → j ≠ i →
              enum_klass_static_field_root_index_at f this j
                = enum_klass_static_field_root_index_at g this j) ∧
    (∀ n i v : Int, num_enum_klass_static_fields h this i = some n →
      0 ≤ i → i < n → is_int32 v →
      ∃ g, set_enum_klass_static_field_root_index_at h this i v = some g ∧
        enum_klass_static_field_root_index_at g this i = some v ∧
        (∀ j : Int, num_enum_klass_static_fields g this j = some n) ∧
        ∀ j : Int, 0 ≤ j → j < n → j ≠ i →
          enum_klass_static_field_root_index_at g this j
            = enum_klass_static_field_root_index_at h this j) := by
  obtain ⟨_, _, _, _, e5⟩ := offsets_plain_sum h this hv hl
  have hoff : 16 ≤ enum_klass_static_fields_offset h this := by
    rw [e5]; omega
  have ha := enum_klass_static_fields_addr_eq h this he
  generalize enum_klass_static_fields_offset h this = off at hoff ha
  refine ⟨?_, ?_⟩
  · intro n hn
    have hg : enum_klass_static_fields_addr
        { h with mem := store_int h.mem (this + off) n } this = some (this + off) := by
      rw [header_frame h this _ (fun x _ hx =>
        store_int_apply_of_disjoint h.mem (this + off) n x (by omega))]
      exact ha
    have hcount : load_int (store_int h.mem (this + off) n) (this + off) = n :=
      load_int_store_int_same _ _ _ hn
    refine ⟨{ h with mem := store_int h.mem (this + off) n }, ?_, ?_, ?_⟩
    · unfold set_num_enum_klass_static_fields
      simp [ha]
    · intro j
      unfold num_enum_klass_static_fields
      simp [hg, hcount]
    · intro i v h0 h1 hvr
      exact set_enum_root_index_at_frame _ this (this + off) n i v hg (by omega) hcount
        h0 h1 hvr
  · intro n i v hnum h0 h1 hvr
    have hcount : load_int h.mem (this + off) = n := by
      unfold num_enum_klass_static_fields at hnum
      simpa [ha] using hnum
    exact set_enum_root_index_at_frame h this (this + off) n i v ha (by omega) hcount
      h0 h1 hvr

/-- C10 at a concrete record, the single-element case: on the all-zero record
of `full_heap` the count is set to 1 and index 0 then written and read back;
`enum_heap` already stores the count 1, index 0 is set to -7 and read back. -/
theorem enum_static_fields_round_trip_witness :
    0 ≤ _num_verifier_constraints enum_heap 0 ∧ 0 ≤ _num_loader_constraints enum_heap 0 ∧
    (enum_heap.klass_at (klass enum_heap 0)).has_archived_enum_objs = true ∧
    num_enum_klass_static_fields enum_heap 0 0 = some 1 ∧ is_int32 (-7) ∧
    (∃ g, set_enum_klass_static_field_root_index_at enum_heap 0 0 (-7) = some g ∧
      enum_klass_static_field_root_index_at g 0 0 = some (-7) ∧
      (∀ j : Int, num_enum_klass_static_fields g 0 j = some 1) ∧
      ∀ j : Int, 0 ≤ j → j < 1 → j ≠ 0 →
        enum_klass_static_field_root_index_at g 0 j
          = enum_klass_static_field_root_index_at enum_heap 0 j) ∧
    (∃ g, set_num_enum_klass_static_fields enum_heap 0 1 = some g ∧
      (∀ j : Int, num_enum_klass_static_fields g 0 j = some 1) ∧
      ∃ f, set_enum_klass_static_field_root_index_at g 0 0 (-7) = some f ∧
        enum_klass_static_field_root_index_at f 0 0 = some (-7)) :=
  have w := enum_static_fields_round_trip enum_heap 0 (by decide) (by decide) (by decide)
  ⟨by decide, by decide, by decide, by decide, by decide,
    w.2 1 0 (-7) (by decide) (by decide) (by decide) (by decide),
    (w.1 1 (by decide)).elim fun g hg =>
      ⟨g, hg.1, hg.2.1,
        (hg.2.2 0 (-7) (by decide) (by decide) (by decide)).elim fun f hf =>
          ⟨f, hf.1, hf.2.1⟩⟩⟩

/-! ## C12 -/

/-- C12: for a class that is not hidden and has integrity info,
`byte_size(klass, 2, 1, 0)` is `header_size_size()` plus the word-aligned
integrity-info size plus `loader_constraints_size(1)`,
`verifier_constraints_size(2)` and `verifier_constraint_flags_size(2)` (56
bytes on LP64); the nest-host and enum-static-fields sections contribute
nothing. -/
theorem byte_size_scenario (h : Heap) (k : Nat)
    (hh : (h.klass_at k).is_hidden = false) (hu : 0 < crc_size h k) :
    byte_size h k 2 1 0
      = header_size_size + align_up (crc_size h k) wordSize + loader_constraints_size 1
        + verifier_constraints_size 2 + verifier_constraint_flags_size 2 ∧
    nest_host_size h k = 0 ∧ enum_klass_static_fields_size 0 = 0 ∧
    byte_size h k 2 1 0 = 56 := by
  have hn : nest_host_size h k = 0 := by
    unfold nest_host_size
    simp [hh]
  have hc : crc_size h k = 8 := by
    unfold crc_size sizeof_CrcInfo at hu ⊢
    split
    · rfl
    · rename_i hneg
      simp [hneg] at hu
  refine ⟨?_, hn, by decide, ?_⟩
  · simp only [byte_size, hn, hc]
    decide
  · simp only [byte_size, hn, hc]
    decide

/-- C12 at the concrete scenario record of `scenario_heap`. -/
theorem byte_size_scenario_witness :
    (scenario_heap.klass_at (klass scenario_heap 0)).is_hidden = false ∧
    0 < crc_size scenario_heap (klass scenario_heap 0) ∧
    byte_size scenario_heap (klass scenario_heap 0) 2 1 0
      = header_size_size + align_up (crc_size scenario_heap (klass scenario_heap 0)) wordSize
        + loader_constraints_size 1 + verifier_constraints_size 2
        + verifier_constraint_flags_size 2 ∧
    byte_size scenario_heap (klass scenario_heap 0) 2 1 0 = 56 :=
  have w := byte_size_scenario scenario_heap (klass scenario_heap 0) (by decide) (by decide)
  ⟨by decide, by decide, w.1, w.2.2.2⟩

/-! ## C16 -/

/-- C16: for every `int` count `n >= 0`, `verifier_constraints_size(n)`,
`verifier_constraint_flags_size(n)` and `loader_constraints_size(n)` are
multiples of `wordSize`, are at least `n * sizeof(element)` and exceed it by
less than `wordSize`; likewise `header_size_size()` against
`sizeof(RunTimeClassInfo)`. -/
theorem array_section_sizes_least_word_multiple (n : Int) (h0 : 0 ≤ n) (hn : is_int32 n) :
    (wordSize ∣ verifier_constraints_size n ∧
      n.toNat * sizeof_RTVerifierConstraint ≤ verifier_constraints_size n ∧
      verifier_constraints_size n < n.toNat * sizeof_RTVerifierConstraint + wordSize) ∧
    (wordSize ∣ verifier_constraint_flags_size n ∧
      n.toNat * sizeof_char ≤ verifier_constraint_flags_size n ∧
      verifier_constraint_flags_size n < n.toNat * sizeof_char + wordSize) ∧
    (wordSize ∣ loader_constraints_size n ∧
      n.toNat * sizeof_RTLoaderConstraint ≤ loader_constraints_size n ∧
      loader_constraints_size n < n.toNat * sizeof_RTLoaderConstraint + wordSize) ∧
    (wordSize ∣ header_size_size ∧
      sizeof_RunTimeClassInfo ≤ header_size_size ∧
      header_size_size < sizeof_RunTimeClassInfo + wordSize) := by
  rw [verifier_constraints_size_eq n h0 hn.2, verifier_constraint_flags_size_eq n h0 hn.2,
    loader_constraints_size_eq n h0 hn.2, header_size_size_eq]
  unfold wordSize sizeof_RTVerifierConstraint sizeof_char sizeof_RTLoaderConstraint
    sizeof_RunTimeClassInfo
  refine ⟨⟨?_, ?_, ?_⟩, ⟨?_, ?_, ?_⟩, ⟨?_, ?_, ?_⟩, ⟨?_, ?_, ?_⟩⟩ <;> omega

/-- C16 at a concrete count: 3 elements. -/
theorem array_section_sizes_least_word_multiple_witness :
    (0 : Int) ≤ 3 ∧ is_int32 3 ∧
    (wordSize ∣ verifier_constraint_flags_size 3 ∧
      (3 : Int).toNat * sizeof_char ≤ verifier_constraint_flags_size 3 ∧
      verifier_constraint_flags_size 3 < (3 : Int).toNat * sizeof_char + wordSize) :=
  ⟨by decide, by decide,
    (array_section_sizes_least_word_multiple 3 (by decide) (by decide)).2.1⟩

/-! ## C17 -/

/-- With non-negative stored counts and an `int` enum count, the block size is
the plain sum of the enum-section offset and the enum-section size. -/
theorem byte_size_plain_sum (h : Heap) (this : Nat) (ne : Int)
    (hv : 0 ≤ _num_verifier_constraints h this) (hl : 0 ≤ _num_loader_constraints h this)
    (hne : is_int32 ne) :
    byte_size h (klass h this) (_num_verifier_constraints h this)
        (_num_loader_constraints h this) ne
      = enum_klass_static_fields_offset h this + enum_klass_static_fields_size ne := by
  have key : byte_size h (klass h this) (_num_verifier_constraints h this)
        (_num_loader_constraints h this) ne
      = (enum_klass_static_fields_offset h this + enum_klass_static_fields_size ne)
          % SIZE_T_MOD := rfl
  rw [key]
  have hvr := (load_int_is_int32 h.mem (this + 8)).2
  have hlr := (load_int_is_int32 h.mem (this + 12)).2
  change _num_verifier_constraints h this ≤ 2147483647 at hvr
  change _num_loader_constraints h this ≤ 2147483647 at hlr
  have hc := crc_size_le h (klass h this)
  have hn := nest_host_size_le h (klass h this)
  obtain ⟨_, _, _, _, e5⟩ := offsets_plain_sum h this hv hl
  rw [e5]
  unfold SIZE_T_MOD
  apply Nat.mod_eq_of_lt
  have := hne.2
  rcases le_or_lt ne 0 with h0 | h0
  · rw [enum_klass_static_fields_size_nonpos ne h0]
    omega
  · rw [enum_klass_static_fields_size_pos ne h0 hne.2]
    omega

/-- C17: on a record with non-negative stored counts `nv`, `nl`, in a block of
`byte_size(klass, nv, nl, ne)` bytes: element `i < nl` of the loader
constraints lies in `[loader_constraints_offset, verifier_constraints_offset)`,
element `i < nv` of the verifier constraints in `[verifier_constraints_offset,
verifier_constraint_flags_offset)`, flag byte `i < nv` in
`[verifier_constraint_flags_offset, enum_klass_static_fields_offset)`, and for
`ne >= 1` the count field and every root-index slot `i < ne` in
`[enum_klass_static_fields_offset, byte_size)`; the sections follow each other
in this order and end at or before `byte_size`. -/
theorem in_range_accesses_within_sections (h : Heap) (this : Nat) (ne : Int)
    (hv : 0 ≤ _num_verifier_constraints h this) (hl : 0 ≤ _num_loader_constraints h this)
    (hne : is_int32 ne) :
    (∀ i : Int, 0 ≤ i → i < num_loader_constraints h this →
      ∃ p, loader_constraint_at h this i = some p ∧
        this + loader_constraints_offset h this ≤ p ∧
        p + sizeof_RTLoaderConstraint ≤ this + verifier_constraints_offset h this) ∧
    (∀ i : Int, 0 ≤ i → i < num_verifier_constraints h this →
      ∃ p, verifier_constraint_at h this i = some p ∧
        this + verifier_constraints_offset h this ≤ p ∧
        p + sizeof_RTVerifierConstraint ≤ this + verifier_constraint_flags_offset h this) ∧
    (∀ i : Int, 0 ≤ i → i < num_verifier_constraints h this →
      ∃ q, verifier_constraint_flags h this = some q ∧
        verifier_constraint_flag h this i = some (load_u1 h.mem (q + sizeof_char * i.toNat)) ∧
        this + verifier_constraint_flags_offset h this ≤ q + sizeof_char * i.toNat ∧
        q + sizeof_char * i.toNat + sizeof_char
          ≤ this + enum_klass_static_fields_offset h this) ∧
    (1 ≤ ne → (h.klass_at (klass h this)).has_archived_enum_objs = true →
      ∃ p, enum_klass_static_fields_addr h this = some p ∧
        this + enum_klass_static_fields_offset h this ≤ p ∧
        p + sizeof_int ≤ this + byte_size h (klass h this) (_num_verifier_constraints h this)
          (_num_loader_constraints h this) ne ∧
        ∀ i : Int, 0 ≤ i → i < ne →
          this + enum_klass_static_fields_offset h this
            ≤ p + sizeof_int + sizeof_int * i.toNat ∧
          p + sizeof_int + sizeof_int * i.toNat + sizeof_int
            ≤ this + byte_size h (klass h this) (_num_verifier_constraints h this)
              (_num_loader_constraints h this) ne) ∧
    (header_size_size ≤ loader_constraints_offset h this ∧
      loader_constraints_offset h this ≤ verifier_constraints_offset h this ∧
      verifier_constraints_offset h this ≤ verifier_constraint_flags_offset h this ∧
      verifier_constraint_flags_offset h this ≤ enum_klass_static_fields_offset h this ∧
      enum_klass_static_fields_offset h this
        ≤ byte_size h (klass h this) (_num_verifier_constraints h this)
          (_num_loader_constraints h this) ne) := by
  obtain ⟨_, e2, e3, e4, e5⟩ := offsets_plain_sum h this hv hl
  have hB := byte_size_plain_sum h this ne hv hl hne
  have hne2 := hne.2
  unfold num_loader_constraints num_verifier_constraints
  unfold sizeof_RTLoaderConstraint sizeof_RTVerifierConstraint sizeof_char sizeof_int
  refine ⟨?_, ?_, ?_, ?_, ?_⟩
  · intro i i0 i1
    have hpos : _num_loader_constraints h this > 0 := by omega
    refine ⟨this + loader_constraints_offset h this + 8 * i.toNat, ?_, ?_, ?_⟩
    · unfold loader_constraint_at check_loader_constraint_offset loader_constraints
        sizeof_RTLoaderConstraint
      simp [i0, i1, hpos]
    · omega
    · rw [e3, e2]
      omega
  · intro i i0 i1
    have hpos : _num_verifier_constraints h this > 0 := by omega
    refine ⟨this + verifier_constraints_offset h this + 8 * i.toNat, ?_, ?_, ?_⟩
    · unfold verifier_constraint_at check_verifier_constraint_offset verifier_constraints
        sizeof_RTVerifierConstraint
      simp [i0, i1, hpos]
    · omega
    · rw [e4, e3]
      omega
  · intro i i0 i1
    have hpos : _num_verifier_constraints h this > 0 := by omega
    refine ⟨this + verifier_constraint_flags_offset h this, ?_, ?_, ?_, ?_⟩
    · unfold verifier_constraint_flags
      simp [hpos]
    · unfold verifier_constraint_flag check_verifier_constraint_offset
        verifier_constraint_flags sizeof_char
      simp [i0, i1, hpos]
    · omega
    · rw [e5, e4]
      omega
  · intro h1 he
    refine ⟨this + enum_klass_static_fields_offset h this,
      enum_klass_static_fields_addr_eq h this he, le_refl _, ?_, ?_⟩
    · rw [hB, enum_klass_static_fields_size_pos ne (by omega) hne2]
      omega
    · intro i i0 i1
      rw [hB, enum_klass_static_fields_size_pos ne (by omega) hne2]
      omega
  · rw [hB, e5, e4, e3, e2, header_size_size_eq]
    refine ⟨?_, ?_, ?_, ?_, ?_⟩ <;> omega

/-- C17 at a concrete record: `counts_heap` has 2 verifier constraints, 1
loader constraint and is allocated for 3 enum static fields. -/
theorem in_range_accesses_within_sections_witness :
    0 ≤ _num_verifier_constraints counts_heap 0 ∧ 0 ≤ _num_loader_constraints counts_heap 0 ∧
    is_int32 3 ∧
    (∃ p, loader_constraint_at counts_heap 0 0 = some p ∧
      0 + loader_constraints_offset counts_heap 0 ≤ p ∧
      p + sizeof_RTLoaderConstraint ≤ 0 + verifier_constraints_offset counts_heap 0) ∧
    (∃ p, verifier_constraint_at counts_heap 0 1 = some p ∧
      0 + verifier_constraints_offset counts_heap 0 ≤ p ∧
      p + sizeof_RTVerifierConstraint ≤ 0 + verifier_constraint_flags_offset counts_heap 0) ∧
    enum_klass_static_fields_offset counts_heap 0
      ≤ byte_size counts_heap (klass counts_heap 0) (_num_verifier_constraints counts_heap 0)
          (_num_loader_constraints counts_heap 0) 3 :=
  have w := in_range_accesses_within_sections counts_heap 0 3 (by decide) (by decide)
    (by decide)
  ⟨by decide, by decide, by decide, w.1 0 (by decide) (by decide),
    w.2.1 1 (by decide) (by decide), w.2.2.2.2.2.2.2.2⟩

/-! ## Pointer-sized loads after stores -/

theorem store_u8_apply_of_disjoint (m : Nat → Nat) (a v x : Nat)
    (hx : x < a ∨ a + 8 ≤ x) : store_u8 m a v x = m x := by
  unfold store_u8 store_u1
  have h0 : x ≠ a := by omega
  have h1 : x ≠ a + 1 := by omega
  have h2 : x ≠ a + 2 := by omega
  have h3 : x ≠ a + 3 := by omega
  have h4 : x ≠ a + 4 := by omega
  have h5 : x ≠ a + 5 := by omega
  have h6 : x ≠ a + 6 := by omega
  have h7 : x ≠ a + 7 := by omega
  simp only [h0, h1, h2, h3, h4, h5, h6, h7, if_false]

theorem load_u8_store_u8_of_disjoint (m : Nat → Nat) (a v b : Nat)
    (hb : b + 8 ≤ a ∨ a + 8 ≤ b) : load_u8 (store_u8 m a v) b = load_u8 m b := by
  unfold load_u8 load_u1
  rw [store_u8_apply_of_disjoint m a v b (by omega),
    store_u8_apply_of_disjoint m a v (b + 1) (by omega),
    store_u8_apply_of_disjoint m a v (b + 2) (by omega),
    store_u8_apply_of_disjoint m a v (b + 3) (by omega),
    store_u8_apply_of_disjoint m a v (b + 4) (by omega),
    store_u8_apply_of_disjoint m a v (b + 5) (by omega),
    store_u8_apply_of_disjoint m a v (b + 6) (by omega),
    store_u8_apply_of_disjoint m a v (b + 7) (by omega)]

theorem load_u8_store_u8_same (m : Nat → Nat) (a v : Nat) (hv : v < SIZE_T_MOD) :
    load_u8 (store_u8 m a v) a = v := by
  unfold SIZE_T_MOD at hv
  unfold load_u8 load_u1 store_u8 store_u1
  have e1 : ∀ i j : Nat, i < j → (a + i = a + j) = False := by
    intro i j hij
    simp only [eq_iff_iff, iff_false]
    omega
  have e0 : ∀ j : Nat, 0 < j → (a = a + j) = False := by
    intro j hj
    simp only [eq_iff_iff, iff_false]
    omega
  simp only [e0 1 (by omega), e0 2 (by omega), e0 3 (by omega), e0 4 (by omega),
    e0 5 (by omega), e0 6 (by omega), e0 7 (by omega),
    e1 1 2 (by omega), e1 1 3 (by omega), e1 1 4 (by omega), e1 1 5 (by omega),
    e1 1 6 (by omega), e1 1 7 (by omega), e1 2 3 (by omega), e1 2 4 (by omega),
    e1 2 5 (by omega), e1 2 6 (by omega), e1 2 7 (by omega), e1 3 4 (by omega),
    e1 3 5 (by omega), e1 3 6 (by omega), e1 3 7 (by omega), e1 4 5 (by omega),
    e1 4 6 (by omega), e1 4 7 (by omega), e1 5 6 (by omega), e1 5 7 (by omega),
    e1 6 7 (by omega), if_false, if_true]
  omega

theorem set_for_eq (current : ArchiveBuilder) (ptrmap : Nat → Bool) (h : Heap)
    (klass record : Nat) (hk : is_in_buffer_space current klass = true)
    (hr : is_in_buffer_space current record = true) :
    set_for current ptrmap h klass record
      = some ({ h with mem := store_u8 h.mem (info_pointer_addr klass) record },
          mark_pointer ptrmap (info_pointer_addr klass)) := by
  unfold set_for
  simp only [hk, hr, if_true]

/-! ## C11 -/

/-- C11: for an archived (shared) class `klass` and a record, both inside the
buffer under construction, `set_for(klass, record)` succeeds and
`get_for(klass)` then returns exactly `record`; the word written and read is
the one at `info_pointer_addr(klass)`, which ends where `klass` begins
(`klass` minus one pointer size). -/
theorem back_pointer_round_trip (current : ArchiveBuilder) (ptrmap : Nat → Bool) (h : Heap)
    (klass record : Nat)
    (hk : is_in_buffer_space current klass = true)
    (hr : is_in_buffer_space current record = true)
    (hs : (h.klass_at klass).is_shared = true)
    (hslot : sizeof_RunTimeClassInfo_ptr ≤ klass) (hrec : record < SIZE_T_MOD) :
    ∃ g pm, set_for current ptrmap h klass record = some (g, pm) ∧
      get_for g klass = some record ∧
      info_pointer_addr klass + sizeof_RunTimeClassInfo_ptr = klass ∧
      g.mem = store_u8 h.mem (klass - sizeof_RunTimeClassInfo_ptr) record ∧
      get_for g klass = some (load_u8 g.mem (klass - sizeof_RunTimeClassInfo_ptr)) ∧
      pm (klass - sizeof_RunTimeClassInfo_ptr) = true := by
  have hadd : info_pointer_addr klass = klass - sizeof_RunTimeClassInfo_ptr := by
    unfold info_pointer_addr
    omega
  refine ⟨_, _, set_for_eq current ptrmap h klass record hk hr, ?_, ?_, ?_, ?_, ?_⟩
  · unfold get_for
    simp only [hs, if_true]
    rw [load_u8_store_u8_same _ _ _ hrec]
  · rw [hadd]
    omega
  · rw [hadd]
  · unfold get_for
    simp only [hs, if_true, hadd]
  · unfold mark_pointer
    simp [hadd]

/-- C11 at a concrete input: the class at 4104 of `slot_heap` and the record
address 12288, both inside the buffer `[4096, 65536)`. -/
theorem back_pointer_round_trip_witness :
    is_in_buffer_space example_builder 4104 = true ∧
    is_in_buffer_space example_builder 12288 = true ∧
    (slot_heap.klass_at 4104).is_shared = true ∧
    sizeof_RunTimeClassInfo_ptr ≤ 4104 ∧ 12288 < SIZE_T_MOD ∧
    ∃ g pm, set_for example_builder (fun _ => false) slot_heap 4104 12288 = some (g, pm) ∧
      get_for g 4104 = some 12288 ∧
      info_pointer_addr 4104 + sizeof_RunTimeClassInfo_ptr = 4104 :=
  have w := back_pointer_round_trip example_builder (fun _ => false) slot_heap 4104 12288
    (by decide) (by decide) (by decide) (by decide) (by decide)
  ⟨by decide, by decide, by decide, by decide, by decide,
    w.elim fun g hg => hg.elim fun pm hp => ⟨g, pm, hp.1, hp.2.1, hp.2.2.1⟩⟩

/-! ## C14 -/

/-- C14: `get_for(klass)` fails its assertion when `klass` is not shared, and
otherwise returns the content of the word at `info_pointer_addr(klass)`. -/
theorem get_for_guarded_by_is_shared (h : Heap) (klass : Nat) :
    ((h.klass_at klass).is_shared = false → get_for h klass = none) ∧
    ((h.klass_at klass).is_shared = true →
      get_for h klass = some (load_u8 h.mem (info_pointer_addr klass))) := by
  unfold get_for
  refine ⟨?_, ?_⟩
  · intro hs
    simp [hs]
  · intro hs
    simp [hs]

/-- C14 at concrete inputs: in `slot_heap` the class at 4104 is shared and its
slot holds 8200; the class at 4112 is not shared. -/
theorem get_for_guarded_by_is_shared_witness :
    (slot_heap.klass_at 4112).is_shared = false ∧ get_for slot_heap 4112 = none ∧
    (slot_heap.klass_at 4104).is_shared = true ∧ get_for slot_heap 4104 = some 8200 :=
  ⟨by decide, (get_for_guarded_by_is_shared slot_heap 4112).1 (by decide), by decide,
    ((get_for_guarded_by_is_shared slot_heap 4104).2 (by decide)).trans (by decide)⟩

/-! ## C18 -/

/-- C18: for two distinct archived classes `a` and `b` (word-aligned addresses
with a slot before them) and a record `r`, `set_for(a, r)` succeeds, changes no
byte outside the word at `info_pointer_addr(a)` and no class, so `get_for(b)`
returns what it returned before; `info_pointer_addr` is injective on such
addresses. -/
theorem back_pointer_slots_independent (current : ArchiveBuilder) (ptrmap : Nat → Bool)
    (h : Heap) (a b r : Nat)
    (hab : a ≠ b) (haw : wordSize ∣ a) (hbw : wordSize ∣ b)
    (ha : sizeof_RunTimeClassInfo_ptr ≤ a) (hb : sizeof_RunTimeClassInfo_ptr ≤ b)
    (hka : is_in_buffer_space current a = true)
    (hkr : is_in_buffer_space current r = true) :
    (∃ g pm, set_for current ptrmap h a r = some (g, pm) ∧
      get_for g b = get_for h b ∧
      (∀ x, x < info_pointer_addr a ∨
          info_pointer_addr a + sizeof_RunTimeClassInfo_ptr ≤ x → g.mem x = h.mem x) ∧
      g.klass_at = h.klass_at) ∧
    info_pointer_addr a ≠ info_pointer_addr b ∧
    (∀ c d : Nat, sizeof_RunTimeClassInfo_ptr ≤ c → sizeof_RunTimeClassInfo_ptr ≤ d →
      info_pointer_addr c = info_pointer_addr d → c = d) := by
  unfold wordSize at haw hbw
  unfold sizeof_RunTimeClassInfo_ptr at ha hb ⊢
  have hia : info_pointer_addr a = a - 8 := by
    unfold info_pointer_addr sizeof_RunTimeClassInfo_ptr
    omega
  have hib : info_pointer_addr b = b - 8 := by
    unfold info_pointer_addr sizeof_RunTimeClassInfo_ptr
    omega
  refine ⟨⟨_, _, set_for_eq current ptrmap h a r hka hkr, ?_, ?_, rfl⟩, ?_, ?_⟩
  · unfold get_for
    simp only []
    rw [hia, hib, load_u8_store_u8_of_disjoint _ _ _ _ (by omega)]
  · intro x hx
    rw [hia] at hx ⊢
    exact store_u8_apply_of_disjoint h.mem (a - 8) r x hx
  · rw [hia, hib]
    omega
  · intro c d hc hd hcd
    unfold info_pointer_addr sizeof_RunTimeClassInfo_ptr at hcd
    omega

/-- C18 at concrete inputs: the classes at 4104 and 4112 of `slot_heap`; the
record 12288 is installed for the class at 4112. -/
theorem back_pointer_slots_independent_witness :
    (4112 : Nat) ≠ 4104 ∧ wordSize ∣ 4112 ∧ wordSize ∣ 4104 ∧
    sizeof_RunTimeClassInfo_ptr ≤ 4112 ∧ sizeof_RunTimeClassInfo_ptr ≤ 4104 ∧
    is_in_buffer_space example_builder 4112 = true ∧
    is_in_buffer_space example_builder 12288 = true ∧
    (∃ g pm, set_for example_builder (fun _ => false) slot_heap 4112 12288 = some (g, pm) ∧
      get_for g 4104 = get_for slot_heap 4104) ∧
    info_pointer_addr 4112 ≠ info_pointer_addr 4104 :=
  have w := back_pointer_slots_independent example_builder (fun _ => false) slot_heap
    4112 4104 12288 (by decide) (by decide) (by decide) (by decide) (by decide) (by decide)
    (by decide)
  ⟨by decide, by decide, by decide, by decide, by decide, by decide, by decide,
    w.1.elim fun g hg => hg.elim fun pm hp => ⟨g, pm, hp.1, hp.2.1⟩, w.2.1⟩

/-! ## C13 -/

theorem find_filter_of_imp {α : Type} (P f : α → Bool) (l : List α)
    (himp : ∀ x ∈ l, P x = true → f x = true) : (l.filter f).find? P = l.find? P := by
  induction l with
  | nil => rfl
  | cons x t ih =>
    have iht := ih (fun y hy => himp y (List.mem_cons_of_mem x hy))
    by_cases hf : f x = true
    · rw [List.filter_cons_of_pos hf]
      by_cases hp : P x = true
      · rw [List.find?_cons_of_pos _ hp, List.find?_cons_of_pos _ hp]
      · rw [List.find?_cons_of_neg _ hp, List.find?_cons_of_neg _ hp, iht]
    · rw [List.filter_cons_of_neg hf]
      have hp : ¬ P x = true := fun hp => hf (himp x (List.mem_cons_self x t) hp)
      rw [List.find?_cons_of_neg _ hp, iht]

theorem getD_map_range {α : Type} (g : Nat → α) (n i : Nat) (d : α) (hi : i < n) :
    ((List.range n).map g).getD i d = g i := by
  simp [List.getD_eq_getElem?_getD, hi]

theorem num_buckets_pos (a b : Nat) : 0 < num_buckets a b := by
  unfold num_buckets
  omega

/-- A lookup in a bulk-loaded table, at any current base, finds the first
entry of the whole entry list whose translated key is the name. -/
theorem lookup_bulk_load (hash : Nat → Nat) (base bucket_size : Nat)
    (pairs : List (Nat × Nat)) (cur name : Nat) :
    lookup hash (bulk_load hash base bucket_size pairs) cur name
      = ((pairs.map (fun p => (reference_to_offset base p.1,
            reference_to_offset base p.2))).find?
          (fun e => offset_to_reference cur e.1 = name)).map
            (fun e => offset_to_reference cur e.2) := by
  unfold lookup bulk_load
  simp only []
  rw [getD_map_range _ _ _ _ (Nat.mod_lt _ (num_buckets_pos _ _))]
  rw [find_filter_of_imp]
  · cases List.find? _ _ <;> rfl
  · intro e _ he
    simp only [decide_eq_true_eq] at he ⊢
    unfold offset_to_reference at he
    unfold reference_to_offset
    subst he
    simp

theorem find_inserted (base cur : Nat) (pairs : List (Nat × Nat))
    (hin : ∀ p ∈ pairs, base ≤ p.1 ∧ base ≤ p.2)
    (hnd : (pairs.map Prod.fst).Nodup) (name record : Nat) (hmem : (name, record) ∈ pairs) :
    (pairs.map (fun p => (reference_to_offset base p.1, reference_to_offset base p.2))).find?
        (fun e => offset_to_reference cur e.1
          = offset_to_reference cur (reference_to_offset base name))
      = some (reference_to_offset base name, reference_to_offset base record) := by
  induction pairs with
  | nil => exact absurd hmem (List.not_mem_nil _)
  | cons p t ih =>
    rw [List.map_cons]
    rw [List.map_cons, List.nodup_cons] at hnd
    rcases List.mem_cons.1 hmem with e | hm
    · subst e
      rw [List.find?_cons_of_pos _ (by simp)]
    · have hne : p.1 ≠ name := by
        intro e
        apply hnd.1
        rw [e]
        exact List.mem_map_of_mem Prod.fst hm
      have h1 := (hin p (List.mem_cons_self p t)).1
      have h2 := (hin (name, record) hmem).1
      have hneg : decide (offset_to_reference cur (reference_to_offset base p.1)
          = offset_to_reference cur (reference_to_offset base name)) = false := by
        unfold offset_to_reference reference_to_offset
        simp only [decide_eq_false_iff_not]
        simp only [] at h2
        omega
      rw [List.find?_cons]
      simp only [hneg]
      exact ih (fun q hq => hin q (List.mem_cons_of_mem p hq)) hnd.2 hm

theorem find_absent (base cur : Nat) (pairs : List (Nat × Nat)) (name : Nat)
    (habs : ∀ p ∈ pairs, offset_to_reference cur (reference_to_offset base p.1) ≠ name) :
    (pairs.map (fun p => (reference_to_offset base p.1, reference_to_offset base p.2))).find?
        (fun e => offset_to_reference cur e.1 = name) = none := by
  rw [List.find?_eq_none]
  intro e he
  obtain ⟨p, hp, rfl⟩ := List.mem_map.1 he
  simpa using habs p hp

/-- C15: for (name, Record) pairs with pairwise distinct names that lie in the
archive mapped at `base`, the bulk-loaded table returns the associated Record
for every inserted name and not-found for every name never inserted; mapped at
any other base `new_base`, the same table returns the relocated Record for
every relocated inserted name and not-found for every other name. -/
theorem dictionary_lookup_correct (hash : Nat → Nat) (base bucket_size : Nat)
    (pairs : List (Nat × Nat))
    (hin : ∀ p ∈ pairs, base ≤ p.1 ∧ base ≤ p.2)
    (hnd : (pairs.map Prod.fst).Nodup) :
    (∀ name record : Nat, (name, record) ∈ pairs →
      lookup hash (bulk_load hash base bucket_size pairs) base name = some record) ∧
    (∀ name : Nat, (∀ p ∈ pairs, p.1 ≠ name) →
      lookup hash (bulk_load hash base bucket_size pairs) base name = none) ∧
    (∀ new_base : Nat,
      (∀ name record : Nat, (name, record) ∈ pairs →
        lookup hash (bulk_load hash base bucket_size pairs) new_base
            (relocate base new_base name)
          = some (relocate base new_base record)) ∧
      (∀ name : Nat, (∀ p ∈ pairs, relocate base new_base p.1 ≠ name) →
        lookup hash (bulk_load hash base bucket_size pairs) new_base name = none)) := by
  have hreloc : ∀ new_base name record : Nat, (name, record) ∈ pairs →
      lookup hash (bulk_load hash base bucket_size pairs) new_base
          (relocate base new_base name)
        = some (relocate base new_base record) := by
    intro new_base name record hmem
    rw [lookup_bulk_load]
    unfold relocate
    rw [find_inserted base new_base pairs hin hnd name record hmem]
    rfl
  have hself : ∀ q : Nat, base ≤ q → relocate base base q = q := by
    intro q hq
    unfold relocate offset_to_reference reference_to_offset
    omega
  refine ⟨?_, ?_, ?_⟩
  · intro name record hmem
    have hb := hin (name, record) hmem
    have := hreloc base name record hmem
    rw [hself name hb.1, hself record hb.2] at this
    exact this
  · intro name habs
    rw [lookup_bulk_load, find_absent base base pairs name]
    · rfl
    · intro p hp
      have := hself p.1 (hin p hp).1
      unfold relocate at this
      rw [this]
      exact habs p hp
  · intro new_base
    refine ⟨hreloc new_base, ?_⟩
    intro name habs
    rw [lookup_bulk_load, find_absent base new_base pairs name]
    · rfl
    · intro p hp
      exact habs p hp

/-- C15 at a concrete table: `example_pairs` loaded at base 4096 with two
entries per bucket, looked up there and after relocation to base 65536. -/
theorem dictionary_lookup_correct_witness :
    (∀ p ∈ example_pairs, 4096 ≤ p.1 ∧ 4096 ≤ p.2) ∧
    (example_pairs.map Prod.fst).Nodup ∧
    lookup example_hash (bulk_load example_hash 4096 2 example_pairs) 4096 4200 = some 6000 ∧
    lookup example_hash (bulk_load example_hash 4096 2 example_pairs) 4096 4201 = none ∧
    lookup example_hash (bulk_load example_hash 4096 2 example_pairs) 65536
        (relocate 4096 65536 4200) = some (relocate 4096 65536 6000) :=
  have w := dictionary_lookup_correct example_hash 4096 2 example_pairs (by decide)
    (by decide)
  ⟨by decide, by decide, w.1 4200 6000 (by decide), w.2.1 4201 (by decide),
    (w.2.2 65536).1 4200 6000 (by decide)⟩

end RunTimeClassInfo
